import Mathlib

/-!
Verification development for the Substance Painter DDS importer plugin
(DDS-Importer.py).  The plugin is orchestration code: it shells out to two
external converters (texconv and bcdecode), splits the alpha channel of the
produced PNG with Pillow, keeps a two-key ini configuration, and registers
results with the host shelf.  We embed that control flow shallowly:

* the disk is a finite map from path strings to file contents;
* Pillow images are a mode string plus per-band pixel data;
* external effects (subprocess runs, host shelf imports, config writes) are
  supplied by an `Env` oracle, and every observable action (log line, console
  print, dialog, subprocess invocation, shelf import call) is recorded in an
  event trace;
* Python exceptions are `Except PyErr`.
-/

set_option autoImplicit false

namespace DDSImporter

/-- A Pillow image: a color mode string together with per-band pixel data,
listed in the band order that the mode prescribes. -/
structure PilImage where
  mode : String
  bands : List (List Nat)
deriving DecidableEq, Repr

/-- Band names of a Pillow color mode, as in Pillow ImageMode.  Note that the
LAB mode has a band named "A" (the a* chroma axis) although it carries no
alpha, while LA and PA carry genuine alpha bands.  Unknown modes map to []. -/
def getbands : String → List String
  | "1" => ["1"]
  | "L" => ["L"]
  | "P" => ["P"]
  | "I" => ["I"]
  | "F" => ["F"]
  | "LA" => ["L", "A"]
  | "La" => ["L", "a"]
  | "PA" => ["P", "A"]
  | "RGB" => ["R", "G", "B"]
  | "RGBA" => ["R", "G", "B", "A"]
  | "RGBa" => ["R", "G", "B", "a"]
  | "RGBX" => ["R", "G", "B", "X"]
  | "CMYK" => ["C", "M", "Y", "K"]
  | "YCbCr" => ["Y", "Cb", "Cr"]
  | "LAB" => ["L", "A", "B"]
  | "HSV" => ["H", "S", "V"]
  | _ => []

/-- The Pillow modes that genuinely carry an alpha channel (straight or
premultiplied).  LAB is not among them: its band named "A" is chroma. -/
def alphaModes : List String := ["RGBA", "RGBa", "LA", "La", "PA"]

/-- Image.getchannel: the named band as a new single-band (mode "L") image. -/
def getchannel (img : PilImage) (name : String) : Option PilImage :=
  match (getbands img.mode).findIdx? (fun b => b == name) with
  | some i => (img.bands[i]?).map (fun b => { mode := "L", bands := [b] })
  | none => none

/-- Contents of a file on the modeled disk. -/
inductive FileContent where
  | image (img : PilImage)
  | ini (data : List (String × List (String × String)))
  | raw (data : String)
deriving DecidableEq, Repr

/-- The modeled disk: an association list from paths to file contents. -/
abbrev FS := List (String × FileContent)

def fsGet (fs : FS) (p : String) : Option FileContent :=
  (fs.find? (fun e => e.1 == p)).map (fun e => e.2)

def fsSet (fs : FS) (p : String) (c : FileContent) : FS :=
  (p, c) :: fs.filter (fun e => !(e.1 == p))

/-- Python exceptions that the plugin raises or meets. -/
inductive PyErr where
  | runtimeError (m : String)
  | osError (m : String)
  | fileNotFound (m : String)
  | unidentifiedImage (m : String)
  | valueError (m : String)
  | keyError (m : String)
  | noSection (m : String)
  | interpolationSyntax (m : String)
  | parsingError (m : String)
deriving DecidableEq, Repr

/-- str(e): the message text of the exception. -/
def PyErr.msg : PyErr → String
  | .runtimeError m | .osError m | .fileNotFound m | .unidentifiedImage m
  | .valueError m | .keyError m | .noSection m | .interpolationSyntax m
  | .parsingError m => m

/-- PIL Image.open on the modeled disk: a missing path raises
FileNotFoundError, a non-image file raises UnidentifiedImageError. -/
def imageOpen (fs : FS) (p : String) : Except PyErr PilImage :=
  match fsGet fs p with
  | none => .error (.fileNotFound ("No such file or directory: " ++ p))
  | some (.image img) => .ok img
  | some _ => .error (.unidentifiedImage ("cannot identify image file " ++ p))

/-- extract_alpha_channel(input_png, output_alpha_png): if the opened image
has mode RGBA or LA, or a band named "A", save that band as a separate
single-band image and return True; otherwise return False and write nothing.
UnidentifiedImageError is re-raised as RuntimeError. -/
def extract_alpha_channel (fs : FS) (input_png output_alpha_png : String) :
    Except PyErr (Bool × FS) :=
  match imageOpen fs input_png with
  | .error (.unidentifiedImage m) =>
      .error (.runtimeError ("Failed to extract alpha channel from " ++ input_png ++ ": " ++ m))
  | .error e => .error e
  | .ok img =>
      if img.mode == "RGBA" || img.mode == "LA" || (getbands img.mode).contains "A" then
        match getchannel img "A" with
        | some alpha => .ok (true, fsSet fs output_alpha_png (.image alpha))
        | none => .error (.valueError ("image has no channel A"))
      else .ok (false, fs)

/-- remove_alpha_channel(input_png): if the opened image has mode RGBA,
convert it to RGB (dropping the alpha band) and save it in place; otherwise
do nothing.  UnidentifiedImageError is re-raised as RuntimeError. -/
def remove_alpha_channel (fs : FS) (input_png : String) : Except PyErr FS :=
  match imageOpen fs input_png with
  | .error (.unidentifiedImage m) =>
      .error (.runtimeError ("Failed to remove alpha channel from " ++ input_png ++ ": " ++ m))
  | .error e => .error e
  | .ok img =>
      if img.mode == "RGBA" then
        .ok (fsSet fs input_png (.image { mode := "RGB", bands := img.bands.take 3 }))
      else .ok fs

/-! ### Small string helpers

Python str.strip() and str.lower() are modeled by structurally recursive
functions over the character list (whitespace per Char.isWhitespace, which
covers the ASCII whitespace relevant to captured tool output). -/

/-- Python str.strip(): drop leading and trailing whitespace. -/
def pyStrip (s : String) : String :=
  String.mk (((s.data.dropWhile Char.isWhitespace).reverse.dropWhile
    Char.isWhitespace).reverse)

/-- Python str.lower(), as used by configparser optionxform. -/
def lowerString (s : String) : String :=
  String.mk (s.data.map Char.toLower)

/-! ### Path helpers (os.path on Windows-style paths) -/

def isSep (c : Char) : Bool := c == '/' || c == '\\'

def lastIndexOf (cs : List Char) (p : Char → Bool) : Option Nat :=
  match cs.reverse.findIdx? p with
  | some k => some (cs.length - 1 - k)
  | none => none

/-- The stem part of os.path.splitext: everything before the final dot of the
basename, provided the basename has a non-dot character before that dot
(drive letters are not special-cased). -/
def splitextStem (s : String) : String :=
  let cs := s.data
  let bstart := match lastIndexOf cs isSep with
    | some i => i + 1
    | none => 0
  match lastIndexOf cs (fun c => c == '.') with
  | some di =>
      if bstart ≤ di && ((cs.drop bstart).take (di - bstart)).any (fun c => !(c == '.')) then
        String.mk (cs.take di)
      else s
  | none => s

/-- os.path.dirname: the part before the last separator, with trailing
separators stripped unless the head is nothing but separators. -/
def dirname (s : String) : String :=
  match lastIndexOf s.data isSep with
  | some i =>
      let h := s.data.take (i + 1)
      let st := (h.reverse.dropWhile isSep).reverse
      if st.isEmpty then String.mk h else String.mk st
  | none => ""

/-- os.path.basename: the part after the last separator. -/
def basename (s : String) : String :=
  match lastIndexOf s.data isSep with
  | some i => String.mk (s.data.drop (i + 1))
  | none => s

/-! ### External effects and the event trace -/

/-- Outcome of subprocess.run: either the process ran to completion with a
return code and captured output, or the invocation itself failed to start. -/
inductive ProcResult where
  | ran (returncode : Int) (stdout stderr : String)
  | launchFail (m : String)
deriving DecidableEq, Repr

/-- Oracle for everything outside the plugin: what a subprocess run does to
the disk and returns, which paths are files, whether the host shelf import
raises (some message) or succeeds (none), and whether config writes succeed. -/
structure Env where
  run : List String → FS → ProcResult × FS
  isfile : String → Bool
  shelfResult : String → Option String
  writeOk : Bool
  writeErrMsg : String

/-- Observable actions of the plugin, in order of occurrence. -/
inductive Event where
  | log (m : String)
  | console (m : String)
  | traceback
  | procCall (cmd : List String)
  | dialog (title text : String)
  | shelfImport (path : String)
deriving DecidableEq, Repr

/-! ### Converter adapters -/

def bcdecodeCmd (exe input_dds output_dds : String) : List String :=
  [exe, input_dds, output_dds, "0", "2"]

/-- run_bcdecode: invoke the bcdecode tool with face index 0 and
reconstruct-Z mode 2; raise RuntimeError with the captured stderr when the
return code is non-zero.  A failure to launch propagates as an OSError. -/
def run_bcdecode (env : Env) (exe input_dds output_dds : String) (fs : FS) :
    List Event × FS × Except PyErr Unit :=
  let cmd := bcdecodeCmd exe input_dds output_dds
  let r := env.run cmd fs
  ([.procCall cmd], r.2,
    match r.1 with
    | .launchFail m => .error (.osError m)
    | .ran rc _ se =>
        if rc != 0 then
          .error (.runtimeError ("bcdecode failed with code " ++ toString rc ++ "\n" ++ se))
        else .ok ())

def texconvCmd (exe dds_file output_png : String) : List String :=
  [exe, "-ft", "png", "-o", dirname output_png, "-y", dds_file]

/-- convert_dds_to_png: print the command line, invoke texconv, and raise
RuntimeError on a non-zero return code with the stripped captured stderr and
stdout in the message; any exception (including a launch failure) is wrapped
in a RuntimeError naming the input file. -/
def convert_dds_to_png (env : Env) (exe dds_file output_png : String) (fs : FS) :
    List Event × FS × Except PyErr Unit :=
  let cmd := texconvCmd exe dds_file output_png
  let ev := [Event.console ("Running texconv command: " ++ String.intercalate " " cmd)]
  let r := env.run cmd fs
  (ev ++ [Event.procCall cmd], r.2,
    match r.1 with
    | .launchFail m =>
        .error (.runtimeError ("Failed to convert " ++ dds_file ++ " to PNG: " ++ m))
    | .ran rc so se =>
        if rc != 0 then
          .error (.runtimeError ("Failed to convert " ++ dds_file ++ " to PNG: " ++
            ("texconv failed with code " ++ toString rc ++ ":\n" ++ pyStrip se ++ "\n" ++ pyStrip so)))
        else .ok ())

/-- import_to_shelf: call the host resource import; log success, and on any
exception log the failure.  The call never raises to its caller. -/
def import_to_shelf (env : Env) (resource_path : String) : List Event :=
  Event.shelfImport resource_path ::
    match env.shelfResult resource_path with
    | none => [Event.log ("Imported to shelf: " ++ resource_path)]
    | some e => [Event.log ("Failed to import " ++ resource_path ++ " to shelf: " ++ e)]

/-! ### Per-file DDS pipeline and the batch loop (on_import_dds) -/

def outPngOf (dds : String) : String := splitextStem dds ++ ".png"

def alphaPngOf (dds : String) : String := splitextStem dds ++ "_alpha.png"

def convLine (dds : String) : String :=
  "Converting " ++ dds ++ " to PNG directly using texconv..."

def failLine (dds emsg : String) : String :=
  "Failed to process " ++ dds ++ ": " ++ emsg

/-- Tail of the per-file pipeline after alpha handling: log the conversion
and import the PNG, then the alpha PNG when a file exists at its path. -/
def ddsImportTail (env : Env) (fs : FS) (dds : String) (evAlpha : List Event) :
    List Event × FS × Except PyErr Unit :=
  (evAlpha ++ [Event.log ("Converted to: " ++ outPngOf dds)] ++
     import_to_shelf env (outPngOf dds) ++
     (if (fsGet fs (alphaPngOf dds)).isSome then import_to_shelf env (alphaPngOf dds) else []),
   fs, .ok ())

/-- Body of the try block run for one selected DDS file: convert with
texconv, extract the alpha channel, strip it from the original when present,
then import the PNG and, when a file exists at the derived alpha path, the
alpha PNG.  The `Except` component is the exception escaping the try body. -/
def processOneDds (env : Env) (fs : FS) (tex dds : String) :
    List Event × FS × Except PyErr Unit :=
  let ev0 := [Event.log (convLine dds)]
  let c := convert_dds_to_png env tex dds (outPngOf dds) fs
  match c.2.2 with
  | .error e => (ev0 ++ c.1, c.2.1, .error e)
  | .ok _ =>
    match extract_alpha_channel c.2.1 (outPngOf dds) (alphaPngOf dds) with
    | .error e => (ev0 ++ c.1, c.2.1, .error e)
    | .ok (true, fs2) =>
      match remove_alpha_channel fs2 (outPngOf dds) with
      | .error e => (ev0 ++ c.1, fs2, .error e)
      | .ok fs3 =>
        let t := ddsImportTail env fs3 dds
          [Event.log ("Alpha channel extracted to: " ++ alphaPngOf dds)]
        (ev0 ++ c.1 ++ t.1, t.2.1, t.2.2)
    | .ok (false, fs2) =>
      let t := ddsImportTail env fs2 dds
        [Event.log ("No alpha channel found in: " ++ dds)]
      (ev0 ++ c.1 ++ t.1, t.2.1, t.2.2)

/-- One loop iteration of on_import_dds: run the try body and, when it
raises, log the failure line and print the traceback, then continue. -/
def processCaught (env : Env) (fs : FS) (tex dds : String) : List Event × FS :=
  let r := processOneDds env fs tex dds
  (r.1 ++ (match r.2.2 with
     | .ok _ => []
     | .error e => [Event.log (failLine dds e.msg), Event.traceback]), r.2.1)

/-- The for loop of on_import_dds over the selected files. -/
def runBatch (env : Env) (tex : String) : FS → List String → List Event × FS
  | fs, [] => ([], fs)
  | fs, dds :: rest =>
    let s := processCaught env fs tex dds
    let r := runBatch env tex s.2 rest
    (s.1 ++ r.1, r.2)

/-! ### Config store (configparser with BasicInterpolation) -/

/-- BasicInterpolation applied to a stored value when it is read back
(before_get): a doubled percent collapses to a single percent and a bare
percent is an interpolation error.  This plugin never stores interpolation
references, so a reference (percent followed by a parenthesis) is modeled as
an error as well. -/
def beforeGetInterp : List Char → Option (List Char)
  | [] => some []
  | c :: r =>
      if c = '%' then
        match r with
        | '%' :: r2 => (beforeGetInterp r2).map (fun t => '%' :: t)
        | _ => none
      else (beforeGetInterp r).map (fun t => c :: t)

/-- BasicInterpolation.before_set: a value may contain percent signs only in
doubled form (references excepted, which this plugin never uses). -/
def beforeSetOk : List Char → Bool
  | [] => true
  | c :: r =>
      if c = '%' then
        match r with
        | '%' :: r2 => beforeSetOk r2
        | _ => false
      else beforeSetOk r

abbrev IniSection := List (String × String)

abbrev IniData := List (String × IniSection)

def lookupEntry (es : IniSection) (k : String) : Option String :=
  (es.find? (fun e => e.1 == k)).map (fun e => e.2)

def entriesSet (es : IniSection) (k v : String) : IniSection :=
  if (es.find? (fun e => e.1 == k)).isSome then
    es.map (fun e => if e.1 == k then (e.1, v) else e)
  else es ++ [(k, v)]

def iniGetSection (c : IniData) (sec : String) : Option IniSection :=
  (c.find? (fun e => e.1 == sec)).map (fun e => e.2)

def iniSetSection (c : IniData) (sec : String) (es : IniSection) : IniData :=
  if (c.find? (fun e => e.1 == sec)).isSome then
    c.map (fun e => if e.1 == sec then (e.1, es) else e)
  else c ++ [(sec, es)]

/-- config[sec].get(key, fallback): raises KeyError when the section is
missing; the key goes through optionxform (lower-casing); interpolation is
applied to the stored value on read. -/
def cfgGet (c : IniData) (sec key : String) (fallback : Option String) :
    Except PyErr (Option String) :=
  match iniGetSection c sec with
  | none => .error (.keyError sec)
  | some es =>
      match lookupEntry es (lowerString key) with
      | none => .ok fallback
      | some v =>
          match beforeGetInterp v.data with
          | some t => .ok (some (String.mk t))
          | none => .error (.interpolationSyntax v)

/-- config[sec][key] = value: raises NoSectionError when the section is
missing and ValueError when before_set rejects the value. -/
def cfgSet (c : IniData) (sec key value : String) : Except PyErr IniData :=
  match iniGetSection c sec with
  | none => .error (.noSection sec)
  | some es =>
      if beforeSetOk value.data then
        .ok (iniSetSection c sec (entriesSet es (lowerString key) value))
      else .error (.valueError ("invalid interpolation syntax in " ++ value))

/-- config.read merging a parsed file into the in-memory state: sections are
merged key by key (keys lower-cased by optionxform), new sections appended. -/
def mergeEntries (base add : IniSection) : IniSection :=
  add.foldl (fun acc e => entriesSet acc (lowerString e.1) e.2) base

def mergeIni (c d : IniData) : IniData :=
  d.foldl (fun acc s =>
    match iniGetSection acc s.1 with
    | some es => iniSetSection acc s.1 (mergeEntries es s.2)
    | none => acc ++ [(s.1, mergeEntries [] s.2)]) c

/-- os.path.join(os.path.dirname(__file__), "DDS-Importer.ini"), modeled as
an opaque constant path. -/
def configFile : String := "DDS-Importer.ini"

/-- The raw Python string for the texconv default keeps its doubled
backslashes, so the stored value contains doubled backslashes. -/
def defaultTexconv : String := "C:\\\\DirectXTex\\\\Texconv\\\\texconv.exe"

def defaultBcdecode : String := "C:\\\\fo76utils\\\\bcdecode.exe"

def defaultPathsSection : IniSection :=
  [("texconv", defaultTexconv), ("bcdecode", defaultBcdecode)]

/-- save_config: write the configuration file; an IOError is caught and
logged as a warning. -/
def save_config (env : Env) (fs : FS) (c : IniData) : List Event × FS :=
  if env.writeOk then ([], fsSet fs configFile (.ini c))
  else ([Event.log ("Failed to save configuration: " ++ env.writeErrMsg)], fs)

/-- create_default_config: set the Paths section to the hardcoded defaults
in memory, then save. -/
def create_default_config (env : Env) (fs : FS) (c : IniData) :
    List Event × FS × IniData :=
  let c1 := iniSetSection c "Paths" defaultPathsSection
  let s := save_config env fs c1
  (s.1, s.2, c1)

/-- load_config: create the default file when absent, then read the file
into the in-memory configuration (config.read ignores a missing file; a file
that is not parseable as ini raises). -/
def load_config (env : Env) (fs : FS) (c : IniData) :
    Except PyErr (List Event × FS × IniData) :=
  let step := if (fsGet fs configFile).isNone then create_default_config env fs c
              else ([], fs, c)
  match fsGet step.2.1 configFile with
  | none => .ok step
  | some (.ini d) => .ok (step.1, step.2.1, mergeIni step.2.2 d)
  | some _ => .error (.parsingError configFile)

/-- An apostrophe character, kept out of string literals. -/
def sq : String := String.mk [Char.ofNat 39]

/-- set_texconv_location, given the path string returned by the file dialog
(empty when the dialog was cancelled). -/
def set_texconv_location (env : Env) (fs : FS) (c : IniData) (dialogPath : String) :
    Except PyErr (List Event × FS × IniData) :=
  if dialogPath == "" then
    .ok ([Event.log "Texconv executable not set. Get the latest version here: https://github.com/microsoft/DirectXTex"],
      fs, c)
  else
    match cfgSet c "Paths" "texconv" dialogPath with
    | .error e => .error e
    | .ok c1 =>
        let s := save_config env fs c1
        .ok (s.1 ++ [Event.log ("texconv location set to: " ++ dialogPath)], s.2, c1)

/-! ### The two workflow handlers -/

def invalidTexconvMsg : String :=
  "Invalid or missing texconv executable. Please set it using the " ++ sq ++
    "Set texconv Location" ++ sq ++ " button."

def invalidBcdecodeMsg : String :=
  "Invalid or missing bcdecode executable. Please set it using the " ++ sq ++
    "Set bcdecode Location" ++ sq ++ " button."

/-- on_import_dds, given the list of files returned by the file dialog.
An empty selection and a missing or invalid texconv path end the workflow
with a single log line; otherwise the batch loop runs. -/
def on_import_dds (env : Env) (fs : FS) (c : IniData) (dds_files : List String) :
    Except PyErr (List Event × FS) :=
  if dds_files.isEmpty then .ok ([Event.log "No DDS files selected for import."], fs)
  else
    match cfgGet c "Paths" "texconv" none with
    | .error e => .error e
    | .ok none => .ok ([Event.log invalidTexconvMsg], fs)
    | .ok (some tex) =>
        if tex == "" || !env.isfile tex then .ok ([Event.log invalidTexconvMsg], fs)
        else .ok (runBatch env tex fs dds_files)

/-- on_import_bc5, given the input and output paths returned by the two file
dialogs (empty when cancelled).  The tool path is validated before any
subprocess invocation; on decode success a modal dialog is shown and then the
output is imported to the shelf; on decode failure the error is logged and
shown in a modal dialog. -/
def on_import_bc5 (env : Env) (fs : FS) (c : IniData) (bc5_input out_dds : String) :
    Except PyErr (List Event × FS) :=
  if bc5_input == "" then
    .ok ([Event.dialog "Cancelled" "No BC5_SNORM input file selected."], fs)
  else if out_dds == "" then
    .ok ([Event.dialog "Cancelled" "No output DDS file selected."], fs)
  else
    match cfgGet c "Paths" "bcdecode" none with
    | .error e => .error e
    | .ok none => .ok ([Event.log invalidBcdecodeMsg], fs)
    | .ok (some bc) =>
        if bc == "" || !env.isfile bc then .ok ([Event.log invalidBcdecodeMsg], fs)
        else
          let ev0 := [Event.log ("Running bcdecode on " ++ bc5_input ++ "...")]
          let r := run_bcdecode env bc bc5_input out_dds fs
          match r.2.2 with
          | .error e =>
              .ok (ev0 ++ r.1 ++ [Event.traceback,
                Event.log ("Error importing BC5_SNORM DDS: " ++ e.msg),
                Event.dialog "Error Importing BC5_SNORM DDS" e.msg], r.2.1)
          | .ok _ =>
              .ok (ev0 ++ r.1 ++
                [Event.log ("bcdecode successful:\n" ++ basename bc5_input ++ " -> " ++ out_dds),
                 Event.dialog "Import Successful"
                   ("bcdecode => " ++ basename bc5_input ++ "\n-> " ++ out_dds)] ++
                import_to_shelf env out_dds, r.2.1)

/-! ### Well-formedness of configparser state

A real ConfigParser stores sections and options in dictionaries, so section
names are distinct, option keys within a section are distinct, and every
stored key has already been through optionxform (lower-casing).  These
invariants hold for every state the plugin can reach. -/

def sectionKeysOk (es : IniSection) : Prop :=
  (es.map Prod.fst).Nodup ∧ ∀ e ∈ es, lowerString e.1 = e.1

def iniOk (c : IniData) : Prop :=
  (c.map Prod.fst).Nodup ∧ ∀ s ∈ c, sectionKeysOk s.2

/-! ### Concrete environments used to instantiate the theorems -/

/-- Everything succeeds; texconv writes an RGB image at b.png. -/
def wEnvOk : Env :=
  { run := fun _ fs => (.ran 0 "" "", fsSet fs "b.png" (.image ⟨"RGB", [[1], [2], [3]]⟩)),
    isfile := fun _ => true, shelfResult := fun _ => none,
    writeOk := true, writeErrMsg := "" }

/-- Subprocesses exit with code 1 and captured output. -/
def wEnvProcFail : Env :=
  { run := fun _ fs => (.ran 1 "out" "err", fs),
    isfile := fun _ => true, shelfResult := fun _ => none,
    writeOk := true, writeErrMsg := "" }

/-- The host shelf import raises for every path. -/
def wEnvShelfFail : Env :=
  { run := fun _ fs => (.ran 0 "" "", fs),
    isfile := fun _ => true, shelfResult := fun _ => some "ProjectError: no project open",
    writeOk := true, writeErrMsg := "" }

/-- texconv fails on a.dds (exit code 1) and succeeds on every other file,
writing an RGB image at b.png. -/
def wEnvC1 : Env :=
  { run := fun cmd fs =>
      if cmd.getLast? = some "a.dds" then (.ran 1 "boom" "err", fs)
      else (.ran 0 "" "", fsSet fs "b.png" (.image ⟨"RGB", [[1], [2], [3]]⟩)),
    isfile := fun _ => true, shelfResult := fun _ => none,
    writeOk := true, writeErrMsg := "" }

/-- texconv succeeds and writes a plain RGB (no alpha) image at t.png. -/
def wEnvC5 : Env :=
  { run := fun _ fs => (.ran 0 "" "", fsSet fs "t.png" (.image ⟨"RGB", [[1], [2], [3]]⟩)),
    isfile := fun _ => true, shelfResult := fun _ => none,
    writeOk := true, writeErrMsg := "" }

/-- texconv succeeds and writes an RGBA image at t.png. -/
def wEnvRGBA : Env :=
  { run := fun _ fs => (.ran 0 "" "", fsSet fs "t.png" (.image ⟨"RGBA", [[1], [2], [3], [9]]⟩)),
    isfile := fun _ => true, shelfResult := fun _ => none,
    writeOk := true, writeErrMsg := "" }

/-! ## Helper lemmas -/

theorem fsGet_fsSet_self (fs : FS) (p : String) (c : FileContent) :
    fsGet (fsSet fs p c) p = some c := by
  simp [fsGet, fsSet, List.find?_cons]

theorem find?_filter_ne (fs : FS) (p q : String) (h : q ≠ p) :
    (fs.filter (fun e => !(e.1 == p))).find? (fun e => e.1 == q) =
      fs.find? (fun e => e.1 == q) := by
  have hpq : (p == q) = false := by
    simp
    exact fun hh => h hh.symm
  induction fs with
  | nil => rfl
  | cons a t ih =>
      by_cases hp : a.1 = p
      · have hq : (a.1 == q) = false := by
          simp [hp]
          exact fun hh => h hh.symm
        simp [List.filter_cons, hp, List.find?_cons, hq, hpq, ih]
      · by_cases hq : a.1 = q
        · simp [List.filter_cons, hp, List.find?_cons, hq, h, ih]
        · simp [List.filter_cons, hp, List.find?_cons, hq, ih]

theorem fsGet_fsSet_ne (fs : FS) (p q : String) (c : FileContent) (h : q ≠ p) :
    fsGet (fsSet fs p c) q = fsGet fs q := by
  have hpq : (p == q) = false := by
    simp
    exact fun hh => h hh.symm
  simp [fsGet, fsSet, List.find?_cons, hpq, find?_filter_ne fs p q h]

theorem convLine_head (d : String) : (convLine d).data.head? = some 'C' := by
  cases d
  rfl

theorem failLine_head (d e : String) : (failLine d e).data.head? = some 'F' := by
  cases d
  cases e
  rfl

theorem convLine_ne_failLine (a b c : String) : convLine a ≠ failLine b c := by
  intro h
  have h2 : (convLine a).data.head? = (failLine b c).data.head? := by rw [h]
  rw [convLine_head, failLine_head] at h2
  exact absurd (Option.some.inj h2) (by decide)

theorem convert_events (env : Env) (exe dds op : String) (fs : FS) :
    (convert_dds_to_png env exe dds op fs).1 =
      [Event.console ("Running texconv command: " ++ String.intercalate " " (texconvCmd exe dds op)),
       Event.procCall (texconvCmd exe dds op)] := rfl

theorem convert_ok_of_run_zero (env : Env) (exe dds op : String) (fs fs1 : FS) (so se : String)
    (h : env.run (texconvCmd exe dds op) fs = (.ran 0 so se, fs1)) :
    convert_dds_to_png env exe dds op fs =
      ([Event.console ("Running texconv command: " ++ String.intercalate " " (texconvCmd exe dds op)),
        Event.procCall (texconvCmd exe dds op)], fs1, .ok ()) := by
  unfold convert_dds_to_png
  dsimp only
  rw [h]
  rfl

/-! ## C3: alpha extraction -/

/-- C3 (counterexample to the claim as stated): the claim says every
decodable image with no alpha band yields false and creates no output file.
A 3-band LAB image has no alpha band (LAB is not an alpha-carrying mode; its
band named "A" is the a* chroma axis, and Pillow can decode LAB images, for
example from Lab TIFF files), yet extract_alpha_channel reports true and
writes the chroma band to the output path, because the source tests
membership of "A" in img.getbands(). -/
theorem extract_alpha_lab_counterexample :
    ("LAB" ∉ alphaModes) ∧
    extract_alpha_channel [("x.png", FileContent.image ⟨"LAB", [[10], [20], [30]]⟩)]
        "x.png" "y.png" =
      .ok (true, [("y.png", FileContent.image ⟨"L", [[20]]⟩),
                  ("x.png", FileContent.image ⟨"LAB", [[10], [20], [30]]⟩)]) :=
  ⟨by decide, rfl⟩

/-- C3 (amended): extract_alpha_channel returns false and creates no file
for any decodable image whose mode is neither RGBA nor LA and whose band
names do not include "A"; for a 4-channel RGBA input it returns true and
writes the alpha band as a single-band image whose pixels are exactly the
source alpha values.  (An image with a band named "A" that is not alpha,
i.e. mode LAB, is also treated as having alpha, per the counterexample.) -/
theorem extract_alpha_amended :
    (∀ (fs : FS) (pin pout : String) (img : PilImage),
       fsGet fs pin = some (.image img) →
       img.mode ≠ "RGBA" → img.mode ≠ "LA" → "A" ∉ getbands img.mode →
       extract_alpha_channel fs pin pout = .ok (false, fs)) ∧
    (∀ (fs : FS) (pin pout : String) (r g b a : List Nat),
       fsGet fs pin = some (.image ⟨"RGBA", [r, g, b, a]⟩) →
       extract_alpha_channel fs pin pout =
         .ok (true, fsSet fs pout (.image ⟨"L", [a]⟩))) := by
  constructor
  · intro fs pin pout img h h1 h2 h3
    have hc : (getbands img.mode).contains "A" = false := by
      simpa using h3
    simp [extract_alpha_channel, imageOpen, h, h1, h2, hc]
    exact fun hmem => absurd hmem h3
  · intro fs pin pout r g b a h
    have hch : getchannel ⟨"RGBA", [r, g, b, a]⟩ "A" = some ⟨"L", [a]⟩ := rfl
    simp [extract_alpha_channel, imageOpen, h, hch]

/-- Witness for the amended C3 theorem at concrete inputs. -/
theorem extract_alpha_amended_witness :
    extract_alpha_channel [("p.png", FileContent.image ⟨"RGB", [[1], [2], [3]]⟩)] "p.png" "q.png" =
      .ok (false, [("p.png", FileContent.image ⟨"RGB", [[1], [2], [3]]⟩)]) ∧
    extract_alpha_channel [("p.png", FileContent.image ⟨"RGBA", [[1], [2], [3], [9]]⟩)]
        "p.png" "q.png" =
      .ok (true, fsSet [("p.png", FileContent.image ⟨"RGBA", [[1], [2], [3], [9]]⟩)]
        "q.png" (.image ⟨"L", [[9]]⟩)) :=
  ⟨extract_alpha_amended.1 _ "p.png" "q.png" ⟨"RGB", [[1], [2], [3]]⟩ rfl
     (by decide) (by decide) (by decide),
   extract_alpha_amended.2 _ "p.png" "q.png" [1] [2] [3] [9] rfl⟩

/-! ## C4: strip_alpha is idempotent -/

/-- C4: on an originally RGBA image file, applying remove_alpha_channel
twice gives the same result as applying it once: the first application
rewrites the file as a 3-band RGB image, after which the mode is no longer
RGBA and the second application is a no-op. -/
theorem strip_alpha_idempotent (fs : FS) (p : String) (r g b a : List Nat)
    (h : fsGet fs p = some (.image ⟨"RGBA", [r, g, b, a]⟩)) :
    (remove_alpha_channel fs p).bind (fun fs1 => remove_alpha_channel fs1 p) =
      remove_alpha_channel fs p := by
  have h1 : remove_alpha_channel fs p =
      .ok (fsSet fs p (.image ⟨"RGB", [r, g, b]⟩)) := by
    simp [remove_alpha_channel, imageOpen, h]
  have h2 : remove_alpha_channel (fsSet fs p (.image ⟨"RGB", [r, g, b]⟩)) p =
      .ok (fsSet fs p (.image ⟨"RGB", [r, g, b]⟩)) := by
    simp [remove_alpha_channel, imageOpen, fsGet_fsSet_self]
  rw [h1]
  simpa [Except.bind] using h2

/-- Witness for C4 at a concrete RGBA image. -/
theorem strip_alpha_idempotent_witness :
    (remove_alpha_channel [("p.png", FileContent.image ⟨"RGBA", [[1], [2], [3], [9]]⟩)]
        "p.png").bind (fun fs1 => remove_alpha_channel fs1 "p.png") =
      remove_alpha_channel [("p.png", FileContent.image ⟨"RGBA", [[1], [2], [3], [9]]⟩)]
        "p.png" :=
  strip_alpha_idempotent _ "p.png" [1] [2] [3] [9] rfl

/-! ## C8: converter adapters translate exit status -/

/-- C8: the DDS to PNG adapter raises a RuntimeError whose message carries
the stripped captured stderr and stdout whenever the tool exits non-zero,
and a RuntimeError carrying the launch error whenever the invocation cannot
start; the BC5 adapter raises a RuntimeError carrying the captured stderr on
a non-zero exit code; both return without error on exit code zero. -/
theorem converter_adapters_translate_exit_codes (env : Env) (fs : FS) :
    (∀ exe i o rc so se fs2, env.run (bcdecodeCmd exe i o) fs = (.ran rc so se, fs2) →
       run_bcdecode env exe i o fs =
         ([Event.procCall (bcdecodeCmd exe i o)], fs2,
          if rc = 0 then Except.ok ()
          else .error (.runtimeError
            ("bcdecode failed with code " ++ toString rc ++ "\n" ++ se)))) ∧
    (∀ exe dds op rc so se fs2, env.run (texconvCmd exe dds op) fs = (.ran rc so se, fs2) →
       convert_dds_to_png env exe dds op fs =
         ([Event.console ("Running texconv command: " ++
             String.intercalate " " (texconvCmd exe dds op)),
           Event.procCall (texconvCmd exe dds op)], fs2,
          if rc = 0 then Except.ok ()
          else .error (.runtimeError ("Failed to convert " ++ dds ++ " to PNG: " ++
            ("texconv failed with code " ++ toString rc ++ ":\n" ++
              pyStrip se ++ "\n" ++ pyStrip so))))) ∧
    (∀ exe dds op m fs2, env.run (texconvCmd exe dds op) fs = (.launchFail m, fs2) →
       convert_dds_to_png env exe dds op fs =
         ([Event.console ("Running texconv command: " ++
             String.intercalate " " (texconvCmd exe dds op)),
           Event.procCall (texconvCmd exe dds op)], fs2,
          .error (.runtimeError ("Failed to convert " ++ dds ++ " to PNG: " ++ m)))) := by
  refine ⟨?_, ?_, ?_⟩
  · intro exe i o rc so se fs2 h
    unfold run_bcdecode
    dsimp only
    rw [h]
    by_cases hrc : rc = 0 <;> simp [hrc]
  · intro exe dds op rc so se fs2 h
    unfold convert_dds_to_png
    dsimp only
    rw [h]
    by_cases hrc : rc = 0 <;> simp [hrc]
  · intro exe dds op m fs2 h
    unfold convert_dds_to_png
    dsimp only
    rw [h]
    rfl

/-- Witness for C8: concrete exit code 1 for the BC5 adapter and a concrete
launch failure for the texconv adapter. -/
theorem converter_adapters_witness :
    run_bcdecode wEnvProcFail "bc.exe" "i.dds" "o.dds" [] =
      ([Event.procCall ["bc.exe", "i.dds", "o.dds", "0", "2"]], [],
       .error (.runtimeError "bcdecode failed with code 1\nerr")) ∧
    convert_dds_to_png wEnvProcFail "tex.exe" "a.dds" "a.png" [] =
      ([Event.console "Running texconv command: tex.exe -ft png -o  -y a.dds",
        Event.procCall ["tex.exe", "-ft", "png", "-o", "", "-y", "a.dds"]], [],
       .error (.runtimeError
         "Failed to convert a.dds to PNG: texconv failed with code 1:\nerr\nout")) :=
  ⟨((converter_adapters_translate_exit_codes wEnvProcFail []).1
     "bc.exe" "i.dds" "o.dds" 1 "out" "err" [] (by rfl)).trans (by rfl),
   ((converter_adapters_translate_exit_codes wEnvProcFail []).2.1
     "tex.exe" "a.dds" "a.png" 1 "out" "err" [] (by rfl)).trans (by rfl)⟩

/-! ## C9: host shelf-import failures are isolated -/

/-- C9: a failing host shelf import is caught inside import_to_shelf and
produces only a log line (import_to_shelf returns a plain event list, so no
exception can propagate to the caller), and the per-file DDS pipeline state
(resulting filesystem and exception outcome) does not depend on the
shelf-import outcome at all: two environments that agree on subprocess behaviour
produce the same filesystem and the same exception result, whatever their
shelf outcomes. -/
theorem shelf_import_failure_isolated :
    (∀ (env : Env) (p emsg : String), env.shelfResult p = some emsg →
       import_to_shelf env p =
         [Event.shelfImport p,
          Event.log ("Failed to import " ++ p ++ " to shelf: " ++ emsg)]) ∧
    (∀ (envA envB : Env), envA.run = envB.run →
       ∀ (fs : FS) (tex dds : String),
         (processOneDds envA fs tex dds).2 = (processOneDds envB fs tex dds).2) := by
  constructor
  · intro env p emsg h
    simp [import_to_shelf, h]
  · intro envA envB h fs tex dds
    have hc : (convert_dds_to_png envA tex dds (outPngOf dds) fs).2 =
        (convert_dds_to_png envB tex dds (outPngOf dds) fs).2 := by
      unfold convert_dds_to_png
      rw [h]
    unfold processOneDds
    dsimp only
    rw [hc]
    cases hcc : (convert_dds_to_png envB tex dds (outPngOf dds) fs).2.2 with
    | error e => rfl
    | ok u =>
        cases hx : extract_alpha_channel (convert_dds_to_png envB tex dds (outPngOf dds) fs).2.1
            (outPngOf dds) (alphaPngOf dds) with
        | error e => rfl
        | ok pr =>
            rcases pr with ⟨b, fs2⟩
            cases b
            · simp [ddsImportTail]
            · cases hr : remove_alpha_channel fs2 (outPngOf dds) with
              | error e => simp [hr]
              | ok fs3 => simp [hr, ddsImportTail]

/-- Witness for C9: a concrete failing shelf import is logged, and the
pipeline state is unchanged between a failing-shelf and a working-shelf
environment with identical subprocess behaviour. -/
theorem shelf_import_failure_isolated_witness :
    import_to_shelf wEnvShelfFail "x.png" =
      [Event.shelfImport "x.png",
       Event.log "Failed to import x.png to shelf: ProjectError: no project open"] ∧
    (processOneDds wEnvShelfFail [] "tex.exe" "t.dds").2 =
      (processOneDds { wEnvShelfFail with shelfResult := fun _ => none }
        [] "tex.exe" "t.dds").2 :=
  ⟨(shelf_import_failure_isolated.1 wEnvShelfFail "x.png" "ProjectError: no project open"
      (by rfl)).trans (by rfl),
   shelf_import_failure_isolated.2 wEnvShelfFail
     { wEnvShelfFail with shelfResult := fun _ => none } (by rfl) [] "tex.exe" "t.dds"⟩

/-! ## C2: BC5 workflow aborts before the subprocess on an invalid tool -/

/-- C2: when the configured bcdecode path is unset (missing key), empty, or
not an existing file, on_import_bc5 produces exactly one abort log line and
its trace contains no subprocess invocation at all. -/
theorem bc5_invalid_tool_aborts (env : Env) (fs : FS) (c : IniData)
    (bc5_input out_dds : String)
    (h1 : bc5_input ≠ "") (h2 : out_dds ≠ "")
    (h3 : cfgGet c "Paths" "bcdecode" none = .ok none ∨
          ∃ p, cfgGet c "Paths" "bcdecode" none = .ok (some p) ∧
            (p = "" ∨ env.isfile p = false)) :
    on_import_bc5 env fs c bc5_input out_dds = .ok ([Event.log invalidBcdecodeMsg], fs) ∧
    ∀ cmd, Event.procCall cmd ∉ [Event.log invalidBcdecodeMsg] := by
  refine ⟨?_, by simp⟩
  unfold on_import_bc5
  rcases h3 with h3 | ⟨p, h3, h4⟩
  · simp [h1, h2, h3]
  · rcases h4 with rfl | h4
    · simp [h1, h2, h3]
    · simp [h1, h2, h3, h4]

/-- Witness for C2 with an empty Paths section and a filesystem oracle that
recognises no files. -/
theorem bc5_invalid_tool_aborts_witness :
    on_import_bc5
      { run := fun _ fs => (.ran 0 "" "", fs), isfile := fun _ => false,
        shelfResult := fun _ => none, writeOk := true, writeErrMsg := "" }
      [] [("Paths", [])] "in.dds" "out.dds" =
      .ok ([Event.log invalidBcdecodeMsg], []) :=
  (bc5_invalid_tool_aborts _ [] [("Paths", [])] "in.dds" "out.dds"
    (by decide) (by decide) (Or.inl (by rfl))).1

/-! ## C10: the success dialog precedes the shelf import in the BC5 workflow -/

/-- C10: on a successful decode whose subsequent shelf import fails, the
trace of on_import_bc5 is exactly: the running log, the subprocess call, the
success log, the modal success dialog, then the shelf import call and a
single failure log line.  In particular the success dialog has already been
shown before the shelf import is attempted, and the import failure surfaces
only as a log line (no further dialog). -/
theorem bc5_success_dialog_precedes_shelf_import (env : Env) (fs : FS) (c : IniData)
    (bc5_input out_dds bc so se : String) (fs2 : FS) (emsg : String)
    (h1 : bc5_input ≠ "") (h2 : out_dds ≠ "")
    (h3 : cfgGet c "Paths" "bcdecode" none = .ok (some bc))
    (h4 : bc ≠ "") (h5 : env.isfile bc = true)
    (h6 : env.run (bcdecodeCmd bc bc5_input out_dds) fs = (.ran 0 so se, fs2))
    (h7 : env.shelfResult out_dds = some emsg) :
    on_import_bc5 env fs c bc5_input out_dds =
      .ok ([Event.log ("Running bcdecode on " ++ bc5_input ++ "..."),
            Event.procCall (bcdecodeCmd bc bc5_input out_dds),
            Event.log ("bcdecode successful:\n" ++ basename bc5_input ++ " -> " ++ out_dds),
            Event.dialog "Import Successful"
              ("bcdecode => " ++ basename bc5_input ++ "\n-> " ++ out_dds),
            Event.shelfImport out_dds,
            Event.log ("Failed to import " ++ out_dds ++ " to shelf: " ++ emsg)], fs2) := by
  have hrun : run_bcdecode env bc bc5_input out_dds fs =
      ([Event.procCall (bcdecodeCmd bc bc5_input out_dds)], fs2, .ok ()) := by
    unfold run_bcdecode
    dsimp only
    rw [h6]
    rfl
  unfold on_import_bc5
  simp [h1, h2, h3, h4, h5, hrun, import_to_shelf, h7]

/-- Witness for C10 at a concrete configuration and environment. -/
theorem bc5_success_dialog_witness :
    on_import_bc5 wEnvShelfFail [] [("Paths", [("bcdecode", "bc.exe")])] "in.dds" "out.dds" =
      .ok ([Event.log "Running bcdecode on in.dds...",
            Event.procCall ["bc.exe", "in.dds", "out.dds", "0", "2"],
            Event.log "bcdecode successful:\nin.dds -> out.dds",
            Event.dialog "Import Successful" "bcdecode => in.dds\n-> out.dds",
            Event.shelfImport "out.dds",
            Event.log "Failed to import out.dds to shelf: ProjectError: no project open"], []) :=
  (bc5_success_dialog_precedes_shelf_import wEnvShelfFail [] [("Paths", [("bcdecode", "bc.exe")])]
    "in.dds" "out.dds" "bc.exe" "" "" [] "ProjectError: no project open"
    (by decide) (by decide) (by rfl) (by decide) (by rfl) (by rfl) (by rfl)).trans (by rfl)

/-! ## C6: load_config creates and reads defaults when the file is absent -/

/-- C6: for every startup state in which the settings file is absent (and
the disk is writable), load_config with a fresh empty configuration first
writes a settings file holding exactly the two hardcoded default tool paths,
then reads it, and subsequent get calls on the resulting configuration
return exactly those default values. -/
theorem load_config_creates_defaults (env : Env) (fs : FS)
    (habsent : fsGet fs configFile = none) (hw : env.writeOk = true) :
    load_config env fs [] =
      .ok ([], fsSet fs configFile (.ini [("Paths", defaultPathsSection)]),
           [("Paths", defaultPathsSection)]) ∧
    cfgGet [("Paths", defaultPathsSection)] "Paths" "texconv" none =
      .ok (some defaultTexconv) ∧
    cfgGet [("Paths", defaultPathsSection)] "Paths" "bcdecode" none =
      .ok (some defaultBcdecode) := by
  have hcreate : create_default_config env fs [] =
      ([], fsSet fs configFile (.ini [("Paths", defaultPathsSection)]),
       [("Paths", defaultPathsSection)]) := by
    unfold create_default_config save_config
    dsimp only
    rw [hw]
    rfl
  have hstep : (if (fsGet fs configFile).isNone then create_default_config env fs []
      else ([], fs, ([] : IniData))) = create_default_config env fs [] := by
    rw [habsent]
    rfl
  refine ⟨?_, rfl, rfl⟩
  unfold load_config
  dsimp only
  rw [hstep, hcreate]
  dsimp only
  rw [fsGet_fsSet_self]
  rfl

/-- Witness for C6 on the empty disk. -/
theorem load_config_defaults_witness :
    load_config wEnvOk [] [] =
      .ok ([], fsSet [] configFile (.ini [("Paths", defaultPathsSection)]),
           [("Paths", defaultPathsSection)]) ∧
    cfgGet [("Paths", defaultPathsSection)] "Paths" "texconv" none =
      .ok (some defaultTexconv) ∧
    cfgGet [("Paths", defaultPathsSection)] "Paths" "bcdecode" none =
      .ok (some defaultBcdecode) :=
  load_config_creates_defaults wEnvOk [] rfl rfl

/-! ## Association-list lemmas for the config store -/

theorem find?_map_replace {β : Type} (es : List (String × β)) (k : String) (v : β) :
    (es.map (fun e => if e.1 == k then (e.1, v) else e)).find? (fun e => e.1 == k) =
      (es.find? (fun e => e.1 == k)).map (fun e => (e.1, v)) := by
  induction es with
  | nil => rfl
  | cons a t ih =>
      by_cases ha : a.1 = k
      · simp [List.find?_cons, ha]
      · simp [List.find?_cons, ha, -List.find?_map]
        simpa [-List.find?_map] using ih

theorem find?_append_none {α : Type} (p : α → Bool) (l1 l2 : List α)
    (h : l1.find? p = none) : (l1 ++ l2).find? p = l2.find? p := by
  induction l1 with
  | nil => rfl
  | cons a t ih =>
      rw [List.find?_cons] at h
      cases hp : p a with
      | true => rw [hp] at h; cases h
      | false =>
          rw [hp] at h
          rw [List.cons_append, List.find?_cons, hp]
          exact ih h

theorem map_fst_map_replace {β : Type} (es : List (String × β)) (k : String) (v : β) :
    (es.map (fun e => if e.1 == k then (e.1, v) else e)).map Prod.fst =
      es.map Prod.fst := by
  induction es with
  | nil => rfl
  | cons a t ih =>
      by_cases ha : a.1 = k
      · simp [ha]
        exact fun x y _ => by by_cases hxk : x = k <;> simp [hxk]
      · simp [ha]
        exact fun x y _ => by by_cases hxk : x = k <;> simp [hxk]

theorem lookupEntry_entriesSet_self (es : IniSection) (k v : String) :
    lookupEntry (entriesSet es k v) k = some v := by
  unfold entriesSet lookupEntry
  by_cases hf : (es.find? (fun e => e.1 == k)).isSome
  · rw [if_pos hf, find?_map_replace]
    rcases Option.isSome_iff_exists.mp hf with ⟨e0, he0⟩
    rw [he0]
    rfl
  · rw [if_neg hf]
    have hnone : es.find? (fun e => e.1 == k) = none :=
      Option.not_isSome_iff_eq_none.mp hf
    rw [find?_append_none _ _ _ hnone]
    simp [List.find?_cons]

theorem iniGetSection_iniSetSection_self (c : IniData) (sec : String) (es : IniSection) :
    iniGetSection (iniSetSection c sec es) sec = some es := by
  unfold iniSetSection iniGetSection
  by_cases hf : (c.find? (fun e => e.1 == sec)).isSome
  · rw [if_pos hf, find?_map_replace]
    rcases Option.isSome_iff_exists.mp hf with ⟨e0, he0⟩
    rw [he0]
    rfl
  · rw [if_neg hf]
    have hnone : c.find? (fun e => e.1 == sec) = none :=
      Option.not_isSome_iff_eq_none.mp hf
    rw [find?_append_none _ _ _ hnone]
    simp [List.find?_cons]

theorem iniGetSection_inv {c : IniData} {sec : String} {es : IniSection}
    (h : iniGetSection c sec = some es) : (sec, es) ∈ c := by
  unfold iniGetSection at h
  cases hf : c.find? (fun e => e.1 == sec) with
  | none => rw [hf] at h; cases h
  | some e0 =>
      rw [hf] at h
      have he : e0.2 = es := by simpa using h
      have hp := List.find?_some hf
      have h1 : e0.1 = sec := by simpa using hp
      have hm := List.mem_of_find?_eq_some hf
      rw [← h1, ← he]
      simpa using hm

theorem sectionKeysOk_entriesSet (es : IniSection) (k v : String)
    (h : sectionKeysOk es) (hk : lowerString k = k) :
    sectionKeysOk (entriesSet es k v) := by
  unfold entriesSet
  by_cases hf : (es.find? (fun e => e.1 == k)).isSome
  · rw [if_pos hf]
    refine ⟨by rw [map_fst_map_replace]; exact h.1, ?_⟩
    intro e he
    rcases List.mem_map.mp he with ⟨e0, he0, hrep⟩
    by_cases h0 : e0.1 = k
    · have hrw : e = (e0.1, v) := by
        rw [← hrep]
        simp [h0]
      rw [hrw]
      simpa [h0] using hk
    · have hrw : e = e0 := by
        rw [← hrep]
        simp [h0]
      rw [hrw]
      exact h.2 e0 he0
  · rw [if_neg hf]
    have hnotin : k ∉ es.map Prod.fst := by
      intro hmem
      rcases List.mem_map.mp hmem with ⟨e0, he0, hfst⟩
      exact hf (List.find?_isSome.mpr ⟨e0, he0, by simp [hfst]⟩)
    refine ⟨?_, ?_⟩
    · rw [List.map_append]
      refine List.Nodup.append h.1 (List.nodup_singleton _) ?_
      intro a ha1 ha2
      have ha3 : a = k := by simpa using ha2
      rw [ha3] at ha1
      exact hnotin ha1
    · intro e he
      rcases List.mem_append.mp he with he | he
      · exact h.2 e he
      · have hrw : e = (k, v) := by simpa using he
        rw [hrw]
        exact hk

theorem iniOk_iniSetSection (c : IniData) (sec : String) (es2 : IniSection)
    (h : iniOk c) (h2 : sectionKeysOk es2) : iniOk (iniSetSection c sec es2) := by
  unfold iniSetSection
  by_cases hf : (c.find? (fun e => e.1 == sec)).isSome
  · rw [if_pos hf]
    refine ⟨by rw [map_fst_map_replace]; exact h.1, ?_⟩
    intro s hs
    rcases List.mem_map.mp hs with ⟨s0, hs0, hrep⟩
    by_cases h0 : s0.1 = sec
    · have hrw : s = (s0.1, es2) := by
        rw [← hrep]
        simp [h0]
      rw [hrw]
      exact h2
    · have hrw : s = s0 := by
        rw [← hrep]
        simp [h0]
      rw [hrw]
      exact h.2 s0 hs0
  · rw [if_neg hf]
    have hnotin : sec ∉ c.map Prod.fst := by
      intro hmem
      rcases List.mem_map.mp hmem with ⟨s0, hs0, hfst⟩
      exact hf (List.find?_isSome.mpr ⟨s0, hs0, by simp [hfst]⟩)
    refine ⟨?_, ?_⟩
    · rw [List.map_append]
      refine List.Nodup.append h.1 (List.nodup_singleton _) ?_
      intro a ha1 ha2
      have ha3 : a = sec := by simpa using ha2
      rw [ha3] at ha1
      exact hnotin ha1
    · intro s hs
      rcases List.mem_append.mp hs with hs | hs
      · exact h.2 s hs
      · have hrw : s = (sec, es2) := by simpa using hs
        rw [hrw]
        exact h2

theorem entriesSet_absent (es : IniSection) (k v : String)
    (h : es.find? (fun e => e.1 == k) = none) :
    entriesSet es k v = es ++ [(k, v)] := by
  unfold entriesSet
  rw [if_neg (by rw [h]; simp)]

theorem mergeEntries_append (add : IniSection) : ∀ (acc : IniSection),
    (add.map Prod.fst).Nodup → (∀ e ∈ add, lowerString e.1 = e.1) →
    (∀ a ∈ add.map Prod.fst, a ∉ acc.map Prod.fst) →
    mergeEntries acc add = acc ++ add := by
  induction add with
  | nil => intro acc _ _ _; simp [mergeEntries]
  | cons e t ih =>
      intro acc hn hl hd
      have hke : lowerString e.1 = e.1 := hl e (List.mem_cons_self e t)
      have habs : acc.find? (fun x => x.1 == e.1) = none := by
        rw [List.find?_eq_none]
        intro x hx
        simp only [beq_iff_eq]
        intro hx1
        exact hd e.1 (by simp) (by rw [← hx1]; exact List.mem_map_of_mem Prod.fst hx)
      have hset : entriesSet acc (lowerString e.1) e.2 = acc ++ [(e.1, e.2)] := by
        rw [hke]
        exact entriesSet_absent acc e.1 e.2 habs
      have hstep : mergeEntries acc (e :: t) = mergeEntries (acc ++ [(e.1, e.2)]) t := by
        unfold mergeEntries
        rw [List.foldl_cons, hset]
      rw [hstep, ih (acc ++ [(e.1, e.2)])]
      · simp
      · exact (List.nodup_cons.mp (by simpa using hn)).2
      · intro x hx; exact hl x (List.mem_cons_of_mem e hx)
      · intro a ha
        simp only [List.map_append, List.mem_append]
        rintro (hacc | hk)
        · exact hd a (by simp [ha]) hacc
        · have ha1 : a = e.1 := by simpa using hk
          have : a ∉ t.map Prod.fst := by
            rw [ha1]
            exact (List.nodup_cons.mp (by simpa using hn)).1
          exact this ha

theorem mergeEntries_nil (es : IniSection) (h : sectionKeysOk es) :
    mergeEntries [] es = es := by
  simpa using mergeEntries_append es [] h.1 h.2 (by simp)

theorem mergeIni_append (d : IniData) : ∀ (acc : IniData),
    (d.map Prod.fst).Nodup → (∀ s ∈ d, sectionKeysOk s.2) →
    (∀ a ∈ d.map Prod.fst, a ∉ acc.map Prod.fst) →
    mergeIni acc d = acc ++ d := by
  induction d with
  | nil => intro acc _ _ _; simp [mergeIni]
  | cons s t ih =>
      intro acc hn hs hd
      have hnone : iniGetSection acc s.1 = none := by
        unfold iniGetSection
        have : acc.find? (fun e => e.1 == s.1) = none := by
          rw [List.find?_eq_none]
          intro x hx
          simp only [beq_iff_eq]
          intro hx1
          exact hd s.1 (by simp) (by rw [← hx1]; exact List.mem_map_of_mem Prod.fst hx)
        rw [this]
        rfl
      have hme : mergeEntries [] s.2 = s.2 := mergeEntries_nil s.2 (hs s (by simp))
      have hstep : mergeIni acc (s :: t) = mergeIni (acc ++ [(s.1, s.2)]) t := by
        unfold mergeIni
        rw [List.foldl_cons]
        rw [hnone, hme]
      rw [hstep, ih (acc ++ [(s.1, s.2)])]
      · simp
      · exact (List.nodup_cons.mp (by simpa using hn)).2
      · intro x hx; exact hs x (List.mem_cons_of_mem s hx)
      · intro a ha
        simp only [List.map_append, List.mem_append]
        rintro (hacc | hk)
        · exact hd a (by simp [ha]) hacc
        · have ha1 : a = s.1 := by simpa using hk
          have : a ∉ t.map Prod.fst := by
            rw [ha1]
            exact (List.nodup_cons.mp (by simpa using hn)).1
          exact this ha

theorem mergeIni_nil (d : IniData) (h : iniOk d) : mergeIni [] d = d := by
  simpa using mergeIni_append d [] h.1 h.2 (by simp)

theorem beforeSetOk_of_no_percent (cs : List Char) (h : '%' ∉ cs) :
    beforeSetOk cs = true := by
  induction cs with
  | nil => rfl
  | cons c t ih =>
      have hc : c ≠ '%' := fun hh => h (hh ▸ List.mem_cons_self c t)
      have ht : '%' ∉ t := fun hm => h (List.mem_cons_of_mem c hm)
      rw [beforeSetOk.eq_def]
      simp [hc, ih ht]

theorem beforeGetInterp_of_no_percent (cs : List Char) (h : '%' ∉ cs) :
    beforeGetInterp cs = some cs := by
  induction cs with
  | nil => rfl
  | cons c t ih =>
      have hc : c ≠ '%' := fun hh => h (hh ▸ List.mem_cons_self c t)
      have ht : '%' ∉ t := fun hm => h (List.mem_cons_of_mem c hm)
      rw [beforeGetInterp.eq_def]
      simp [hc, ih ht]

theorem string_mk_data (s : String) : String.mk s.data = s := rfl

/-! ## C7: set/load round trip for the texconv path -/

/-- C7 (counterexample to the claim as stated): the claim quantifies over
every path string P.  For P = "a%%b" the set succeeds and writes the file
with the raw value, but configparser BasicInterpolation collapses the
doubled percent on read, so a fresh load returns "a%b", not P. -/
theorem set_texconv_percent_counterexample :
    set_texconv_location wEnvOk [] [("Paths", defaultPathsSection)] "a%%b" =
      .ok ([Event.log "texconv location set to: a%%b"],
           [(configFile, FileContent.ini
              [("Paths", [("texconv", "a%%b"), ("bcdecode", defaultBcdecode)])])],
           [("Paths", [("texconv", "a%%b"), ("bcdecode", defaultBcdecode)])]) ∧
    load_config wEnvOk
        [(configFile, FileContent.ini
           [("Paths", [("texconv", "a%%b"), ("bcdecode", defaultBcdecode)])])] [] =
      .ok ([], [(configFile, FileContent.ini
             [("Paths", [("texconv", "a%%b"), ("bcdecode", defaultBcdecode)])])],
           [("Paths", [("texconv", "a%%b"), ("bcdecode", defaultBcdecode)])]) ∧
    cfgGet [("Paths", [("texconv", "a%%b"), ("bcdecode", defaultBcdecode)])]
        "Paths" "texconv" none = .ok (some "a%b") ∧
    ("a%b" : String) ≠ "a%%b" :=
  ⟨rfl, rfl, rfl, by decide⟩

/-- C7 (amended): for every path string P that is nonempty and contains no
percent character, after set_texconv_location succeeds in writing the file,
a fresh load_config in a new session (fresh empty configuration) returns
exactly P for texconv.  The percent restriction is forced by the
counterexample: configparser interpolation collapses doubled percents on
read and rejects bare ones at set time. -/
theorem set_texconv_roundtrip_amended (env env2 : Env) (fs : FS) (c : IniData)
    (es : IniSection) (P : String)
    (hok : iniOk c) (hsec : iniGetSection c "Paths" = some es)
    (hP : P ≠ "") (hnp : '%' ∉ P.data) (hw : env.writeOk = true) :
    set_texconv_location env fs c P =
      .ok ([Event.log ("texconv location set to: " ++ P)],
           fsSet fs configFile (.ini (iniSetSection c "Paths" (entriesSet es "texconv" P))),
           iniSetSection c "Paths" (entriesSet es "texconv" P)) ∧
    load_config env2
        (fsSet fs configFile (.ini (iniSetSection c "Paths" (entriesSet es "texconv" P)))) [] =
      .ok ([],
           fsSet fs configFile (.ini (iniSetSection c "Paths" (entriesSet es "texconv" P))),
           iniSetSection c "Paths" (entriesSet es "texconv" P)) ∧
    cfgGet (iniSetSection c "Paths" (entriesSet es "texconv" P)) "Paths" "texconv" none =
      .ok (some P) := by
  have hkey : lowerString "texconv" = "texconv" := rfl
  have hbset : beforeSetOk P.data = true := beforeSetOk_of_no_percent P.data hnp
  have hcset : cfgSet c "Paths" "texconv" P =
      .ok (iniSetSection c "Paths" (entriesSet es "texconv" P)) := by
    unfold cfgSet
    rw [hsec, hkey, hbset]
    rfl
  have hPb : (P == "") = false := by simpa using hP
  have hc1ok : iniOk (iniSetSection c "Paths" (entriesSet es "texconv" P)) := by
    refine iniOk_iniSetSection c "Paths" _ hok ?_
    have hesok : sectionKeysOk es := hok.2 ("Paths", es) (iniGetSection_inv hsec)
    exact sectionKeysOk_entriesSet es "texconv" P hesok hkey
  refine ⟨?_, ?_, ?_⟩
  · unfold set_texconv_location
    rw [hPb, hcset]
    dsimp only
    unfold save_config
    rw [hw]
    rfl
  · unfold load_config
    simp only [fsGet_fsSet_self, Option.isNone_some, Bool.false_eq_true, if_false]
    rw [mergeIni_nil _ hc1ok]
  · unfold cfgGet
    rw [iniGetSection_iniSetSection_self]
    dsimp only
    rw [hkey, lookupEntry_entriesSet_self]
    dsimp only
    rw [beforeGetInterp_of_no_percent P.data hnp]

/-- Witness for the amended C7 theorem at a concrete path. -/
theorem set_texconv_roundtrip_witness :
    set_texconv_location wEnvOk [] [("Paths", defaultPathsSection)] "D:\\tools\\texconv.exe" =
      .ok ([Event.log ("texconv location set to: " ++ "D:\\tools\\texconv.exe")],
           fsSet [] configFile (.ini (iniSetSection [("Paths", defaultPathsSection)] "Paths"
             (entriesSet defaultPathsSection "texconv" "D:\\tools\\texconv.exe"))),
           iniSetSection [("Paths", defaultPathsSection)] "Paths"
             (entriesSet defaultPathsSection "texconv" "D:\\tools\\texconv.exe")) ∧
    load_config wEnvOk
        (fsSet [] configFile (.ini (iniSetSection [("Paths", defaultPathsSection)] "Paths"
          (entriesSet defaultPathsSection "texconv" "D:\\tools\\texconv.exe")))) [] =
      .ok ([],
           fsSet [] configFile (.ini (iniSetSection [("Paths", defaultPathsSection)] "Paths"
             (entriesSet defaultPathsSection "texconv" "D:\\tools\\texconv.exe"))),
           iniSetSection [("Paths", defaultPathsSection)] "Paths"
             (entriesSet defaultPathsSection "texconv" "D:\\tools\\texconv.exe")) ∧
    cfgGet (iniSetSection [("Paths", defaultPathsSection)] "Paths"
        (entriesSet defaultPathsSection "texconv" "D:\\tools\\texconv.exe"))
        "Paths" "texconv" none = .ok (some "D:\\tools\\texconv.exe") :=
  set_texconv_roundtrip_amended wEnvOk wEnvOk [] [("Paths", defaultPathsSection)]
    defaultPathsSection "D:\\tools\\texconv.exe"
    (by constructor
        · decide
        · intro s hs
          have hrw : s = ("Paths", defaultPathsSection) := by simpa using hs
          rw [hrw]
          exact ⟨by decide, by decide⟩)
    rfl (by decide) (by decide) rfl

/-! ## C5: when the alpha PNG is imported -/

theorem outPng_ne_alphaPng (dds : String) : outPngOf dds ≠ alphaPngOf dds := by
  intro h
  have h2 := congrArg (fun s => s.data.length) h
  simp only [outPngOf, alphaPngOf, String.data_append, List.length_append] at h2
  have e1 : (".png" : String).data.length = 4 := rfl
  have e2 : ("_alpha.png" : String).data.length = 10 := rfl
  rw [e1, e2] at h2
  omega

theorem extract_true_inv (fs : FS) (pin pout : String) (fs2 : FS)
    (h : extract_alpha_channel fs pin pout = .ok (true, fs2)) :
    ∃ img alpha, imageOpen fs pin = .ok img ∧ getchannel img "A" = some alpha ∧
      fs2 = fsSet fs pout (.image alpha) := by
  unfold extract_alpha_channel at h
  cases ho : imageOpen fs pin with
  | error e =>
      rw [ho] at h
      cases e <;> simp at h
  | ok img =>
      rw [ho] at h
      dsimp only at h
      by_cases hcond :
          (img.mode == "RGBA" || img.mode == "LA" || (getbands img.mode).contains "A") = true
      · rw [if_pos hcond] at h
        cases hch : getchannel img "A" with
        | none => rw [hch] at h; cases h
        | some alpha =>
            rw [hch] at h
            have h3 := Except.ok.inj h
            exact ⟨img, alpha, rfl, hch, ((Prod.ext_iff.mp h3).2).symm⟩
      · rw [if_neg hcond] at h
        simp at h

/-- C5 (counterexample to the claim as stated): a stale file already present
at the derived alpha path is imported to the shelf even though this run of
the extraction found no alpha and created nothing: conversion yields a plain
RGB image, extraction returns false and writes no file, yet the exists-check
sees the pre-existing file and submits it. -/
theorem alpha_import_stale_counterexample :
    extract_alpha_channel
        (fsSet [("t_alpha.png", FileContent.raw "stale")] "t.png"
          (.image ⟨"RGB", [[1], [2], [3]]⟩))
        "t.png" "t_alpha.png" =
      .ok (false, fsSet [("t_alpha.png", FileContent.raw "stale")] "t.png"
        (.image ⟨"RGB", [[1], [2], [3]]⟩)) ∧
    Event.shelfImport "t_alpha.png" ∈
      (processOneDds wEnvC5 [("t_alpha.png", FileContent.raw "stale")] "tex.exe" "t.dds").1 :=
  ⟨rfl, by decide⟩

/-- C5 (amended): the alpha PNG is submitted to the shelf import exactly when
a file exists at the derived alpha path after the extraction step.  When no
file pre-exists at that path, this coincides with creation by this run of the
extraction: if extraction reports no alpha (and the path is empty) the
alpha import never happens, and if extraction extracted an alpha the alpha
PNG is always imported.  A pre-existing file at the derived path is however imported
as well, per the counterexample. -/
theorem alpha_import_amended (env : Env) (fs : FS) (tex dds so se : String) (fs1 : FS)
    (hconv : env.run (texconvCmd tex dds (outPngOf dds)) fs = (.ran 0 so se, fs1)) :
    (extract_alpha_channel fs1 (outPngOf dds) (alphaPngOf dds) = .ok (false, fs1) →
     fsGet fs1 (alphaPngOf dds) = none →
     Event.shelfImport (alphaPngOf dds) ∉ (processOneDds env fs tex dds).1) ∧
    (∀ fs2, extract_alpha_channel fs1 (outPngOf dds) (alphaPngOf dds) = .ok (true, fs2) →
     Event.shelfImport (alphaPngOf dds) ∈ (processOneDds env fs tex dds).1) := by
  have hcv := convert_ok_of_run_zero env tex dds (outPngOf dds) fs fs1 so se hconv
  have hne : alphaPngOf dds ≠ outPngOf dds := Ne.symm (outPng_ne_alphaPng dds)
  constructor
  · intro hext hstale
    unfold processOneDds
    rw [hcv]
    dsimp only
    rw [hext]
    dsimp only [ddsImportTail]
    rw [hstale]
    simp only [Option.isSome_none, Bool.false_eq_true, if_false]
    intro hmem
    rcases hsr : env.shelfResult (outPngOf dds) with _ | msg <;>
      simp [import_to_shelf, hsr, hne] at hmem
  · intro fs2 hext
    obtain ⟨img, alpha, hopen, hch, rfl⟩ :=
      extract_true_inv fs1 (outPngOf dds) (alphaPngOf dds) fs2 hext
    have hopen2 : imageOpen (fsSet fs1 (alphaPngOf dds) (.image alpha)) (outPngOf dds) =
        .ok img := by
      unfold imageOpen at hopen ⊢
      rw [fsGet_fsSet_ne _ _ _ _ (outPng_ne_alphaPng dds)]
      exact hopen
    unfold processOneDds
    rw [hcv]
    dsimp only
    rw [hext]
    dsimp only
    unfold remove_alpha_channel
    rw [hopen2]
    dsimp only
    by_cases hmode : (img.mode == "RGBA") = true
    · rw [if_pos hmode]
      dsimp only [ddsImportTail]
      rw [fsGet_fsSet_ne _ _ _ _ hne, fsGet_fsSet_self]
      simp [import_to_shelf]
    · rw [if_neg hmode]
      dsimp only [ddsImportTail]
      rw [fsGet_fsSet_self]
      simp [import_to_shelf]

/-- Witness for the amended C5 theorem: with no pre-existing file, an RGB
conversion leads to no alpha import, and an RGBA conversion leads to an
alpha import. -/
theorem alpha_import_amended_witness :
    (Event.shelfImport (alphaPngOf "t.dds") ∉
      (processOneDds wEnvC5 [] "tex.exe" "t.dds").1) ∧
    (Event.shelfImport (alphaPngOf "t.dds") ∈
      (processOneDds wEnvRGBA [] "tex.exe" "t.dds").1) :=
  ⟨(alpha_import_amended wEnvC5 [] "tex.exe" "t.dds" "" ""
      (fsSet [] "t.png" (.image ⟨"RGB", [[1], [2], [3]]⟩)) (by rfl)).1 (by rfl) (by rfl),
   (alpha_import_amended wEnvRGBA [] "tex.exe" "t.dds" "" ""
      (fsSet [] "t.png" (.image ⟨"RGBA", [[1], [2], [3], [9]]⟩)) (by rfl)).2
     (fsSet (fsSet [] "t.png" (.image ⟨"RGBA", [[1], [2], [3], [9]]⟩)) "t_alpha.png"
       (.image ⟨"L", [[9]]⟩)) (by rfl)⟩

/-! ## C1: per-file failure isolation in the DDS batch -/

theorem processOneDds_error_events (env : Env) (fs : FS) (tex dds : String) (e : PyErr)
    (h : (processOneDds env fs tex dds).2.2 = .error e) :
    (processOneDds env fs tex dds).1 =
      [Event.log (convLine dds),
       Event.console ("Running texconv command: " ++
         String.intercalate " " (texconvCmd tex dds (outPngOf dds))),
       Event.procCall (texconvCmd tex dds (outPngOf dds))] := by
  unfold processOneDds at h ⊢
  dsimp only at h ⊢
  cases hc : (convert_dds_to_png env tex dds (outPngOf dds) fs).2.2 with
  | error e1 =>
      dsimp only
      rw [convert_events]
      rfl
  | ok u =>
      rw [hc] at h
      dsimp only at h ⊢
      cases hx : extract_alpha_channel (convert_dds_to_png env tex dds (outPngOf dds) fs).2.1
          (outPngOf dds) (alphaPngOf dds) with
      | error e1 =>
          dsimp only
          rw [convert_events]
          rfl
      | ok pr =>
          rw [hx] at h
          rcases pr with ⟨b, fs2⟩
          cases b
          · simp [ddsImportTail] at h
          · dsimp only at h ⊢
            cases hr : remove_alpha_channel fs2 (outPngOf dds) with
            | error e1 =>
                dsimp only
                rw [convert_events]
                rfl
            | ok fs3 =>
                rw [hr] at h
                simp [ddsImportTail] at h

theorem runBatch_append (env : Env) (tex : String) (xs : List String) :
    ∀ (fs : FS) (ys : List String),
      runBatch env tex fs (xs ++ ys) =
        ((runBatch env tex fs xs).1 ++ (runBatch env tex (runBatch env tex fs xs).2 ys).1,
         (runBatch env tex (runBatch env tex fs xs).2 ys).2) := by
  induction xs with
  | nil => intro fs ys; simp [runBatch]
  | cons a t ih =>
      intro fs ys
      simp only [List.cons_append, runBatch, List.append_eq]
      rw [ih]
      simp [List.append_assoc]

theorem procCall_mem_processCaught (env : Env) (fs : FS) (tex dds : String) :
    Event.procCall (texconvCmd tex dds (outPngOf dds)) ∈ (processCaught env fs tex dds).1 := by
  have hsub : Event.procCall (texconvCmd tex dds (outPngOf dds)) ∈
      (processOneDds env fs tex dds).1 := by
    unfold processOneDds
    dsimp only
    cases hc : (convert_dds_to_png env tex dds (outPngOf dds) fs).2.2 with
    | error e1 =>
        dsimp only
        rw [convert_events]
        simp
    | ok u =>
        dsimp only
        cases hx : extract_alpha_channel (convert_dds_to_png env tex dds (outPngOf dds) fs).2.1
            (outPngOf dds) (alphaPngOf dds) with
        | error e1 =>
            dsimp only
            rw [convert_events]
            simp
        | ok pr =>
            rcases pr with ⟨b, fs2⟩
            cases b
            · dsimp only
              rw [convert_events]
              simp
            · dsimp only
              cases hr : remove_alpha_channel fs2 (outPngOf dds) with
              | error e1 =>
                  dsimp only
                  rw [convert_events]
                  simp
              | ok fs3 =>
                  dsimp only
                  rw [convert_events]
                  simp
  unfold processCaught
  dsimp only
  simp only [List.mem_append]
  exact Or.inl hsub

theorem procCall_mem_runBatch (env : Env) (tex : String) (files : List String) :
    ∀ (fs : FS) (j : String), j ∈ files →
      Event.procCall (texconvCmd tex j (outPngOf j)) ∈ (runBatch env tex fs files).1 := by
  induction files with
  | nil => intro fs j h; cases h
  | cons a t ih =>
      intro fs j h
      simp only [runBatch]
      simp only [List.mem_append]
      rcases List.mem_cons.mp h with rfl | hm
      · exact Or.inl (procCall_mem_processCaught env fs tex j)
      · exact Or.inr (ih _ j hm)

/-- C1: in the DDS batch, when processing of the selected file K raises an
exception e (conversion failure or any later pipeline step), the workflow
trace still decomposes as the traces of the files before K, the caught trace
of K, and the traces of the files after K; K's caught trace logs exactly one
failure line (the Failed-to-process line for K and e); and every file after
K still gets a texconv invocation recorded in its part of the trace. -/
theorem dds_batch_failure_isolated (env : Env) (fs : FS) (c : IniData) (tex : String)
    (pre post : List String) (K : String) (e : PyErr)
    (htex : cfgGet c "Paths" "texconv" none = .ok (some tex))
    (htne : tex ≠ "") (hfile : env.isfile tex = true)
    (hfail : (processOneDds env (runBatch env tex fs pre).2 tex K).2.2 = .error e) :
    on_import_dds env fs c (pre ++ K :: post) = .ok (runBatch env tex fs (pre ++ K :: post)) ∧
    (runBatch env tex fs (pre ++ K :: post)).1 =
      (runBatch env tex fs pre).1 ++
        (processCaught env (runBatch env tex fs pre).2 tex K).1 ++
        (runBatch env tex (processCaught env (runBatch env tex fs pre).2 tex K).2 post).1 ∧
    List.count (Event.log (failLine K e.msg))
        (processCaught env (runBatch env tex fs pre).2 tex K).1 = 1 ∧
    ∀ j ∈ post, Event.procCall (texconvCmd tex j (outPngOf j)) ∈
      (runBatch env tex (processCaught env (runBatch env tex fs pre).2 tex K).2 post).1 := by
  refine ⟨?_, ?_, ?_, ?_⟩
  · unfold on_import_dds
    have hne : (pre ++ K :: post).isEmpty = false := by simp
    have h1 : (tex == "") = false := by simpa using htne
    rw [hne, htex]
    simp only [Bool.false_eq_true, if_false]
    rw [h1, hfile]
    rfl
  · rw [runBatch_append]
    simp only [runBatch]
    simp [List.append_assoc]
  · have htr := processOneDds_error_events env (runBatch env tex fs pre).2 tex K e hfail
    simp only [processCaught]
    rw [htr, hfail]
    simp [List.count_cons, List.count_append, convLine_ne_failLine K K e.msg]
  · intro j hj
    exact procCall_mem_runBatch env tex post _ j hj

/-- Witness for C1: two selected files, texconv exits 1 on the first and
succeeds on the second; the first file logs exactly one failure line and the
second file still gets its texconv invocation. -/
theorem dds_batch_failure_witness :
    List.count
      (Event.log (failLine "a.dds"
        "Failed to convert a.dds to PNG: texconv failed with code 1:\nerr\nboom"))
      (processCaught wEnvC1 (runBatch wEnvC1 "tex.exe" [] []).2 "tex.exe" "a.dds").1 = 1 ∧
    Event.procCall (texconvCmd "tex.exe" "b.dds" (outPngOf "b.dds")) ∈
      (runBatch wEnvC1 "tex.exe"
        (processCaught wEnvC1 (runBatch wEnvC1 "tex.exe" [] []).2 "tex.exe" "a.dds").2
        ["b.dds"]).1 := by
  have h := dds_batch_failure_isolated wEnvC1 [] [("Paths", [("texconv", "tex.exe")])]
    "tex.exe" [] ["b.dds"] "a.dds"
    (.runtimeError "Failed to convert a.dds to PNG: texconv failed with code 1:\nerr\nboom")
    (by rfl) (by decide) (by rfl) (by rfl)
  exact ⟨h.2.2.1, h.2.2.2 "b.dds" (by simp)⟩

end DDSImporter
